import Mathlib

/-!
Shallow embedding of the `rxjs-observed-decorator` library.

The embedding models the `@Observed` property decorator: a declaration is
installed once on a shared prototype, and the first write to the value
property (or the first read of the derived stream property) materializes an
owner-specific subject together with owner-level accessors.

Two source variants are embedded:
* variant A: the arrow-function decorator in `src/observed.decorator.ts`
  (lines 22-99);
* variant B: the namespaced-function decorator in the unnamed source file
  (`Observed` / `ObservedDecorator.initialSetValue` / `initialGetValue` /
  `initialGetObservable`, lines 22-98).

The rxjs subject primitives (`BehaviorSubject`, `Subject`, `ReplaySubject`,
`next`, `getValue`, `asObservable`, subscription delivery) are external to
the repository; they are embedded here following the spec's
external-collaborator contract: construction seeds, per-kind value
retention, in-order delivery to subscribers, and `next` on a terminated
stream surfacing an error to the caller.
-/

namespace RxObserved

/-- JavaScript values flowing through a decorated property: the `undefined`
marker, the `null` sentinel, or an ordinary (numeric) payload. -/
inductive JSVal where
  | undef
  | null
  | num (n : Nat)
deriving DecidableEq, Repr

/-- Nullish coalescing against `null`: models the source expression
`v ?? null` (observed.decorator.ts line 36, part_000 lines 72, 90, 95). -/
def JSVal.orNull : JSVal → JSVal
  | .undef => .null
  | v => v

/-- Value of the `type` kind selector: one of the three recognized strings
of `ObservedDecoratorType`, or any other (unrecognized) string. -/
inductive TypeSelector where
  | behavior
  | subject
  | replay
  | unknown (s : String)
deriving DecidableEq, Repr

/-- Embedding of `ObservedDecoratorOptions`: the kind selector and the
`replayOptions.bufferSize` argument forwarded to `ReplaySubject` (`none`
models an absent bound, rxjs defaults it to infinity).  The `windowTime`
and `scheduler` arguments are forwarded untouched by both variants and left
out of the model. -/
structure Options where
  type : TypeSelector
  bufferSize : Option Nat
deriving DecidableEq, Repr

/-- One `@Observed` declaration: the initial value captured from the
prototype at decoration time (`target[key]`, possibly `undefined`) and the
parsed options. -/
structure Decl where
  initialValue : JSVal
  opts : Options
deriving DecidableEq, Repr

/-- An attached observer; `received` lists every value delivered to it, in
delivery order. -/
structure Subscriber where
  received : List JSVal
deriving DecidableEq, Repr

/-- Which rxjs subject class was constructed. -/
inductive SubjectKind where
  | behavior
  | subject
  | replay
deriving DecidableEq, Repr

/-- State of one rxjs subject: its class, the current value (meaningful for
`BehaviorSubject`), the replay buffer (meaningful for `ReplaySubject`), the
buffer bound, whether the stream has been terminated by an external
consumer, and the attached subscribers. -/
structure ObsSubject where
  kind : SubjectKind
  current : JSVal
  buffer : List JSVal
  bufferSize : Option Nat
  closed : Bool
  subs : List Subscriber
deriving DecidableEq, Repr

/-- Construction `new BehaviorSubject(v)`. -/
def mkBehaviorSubject (v : JSVal) : ObsSubject :=
  { kind := .behavior, current := v, buffer := [], bufferSize := none,
    closed := false, subs := [] }

/-- Construction `new Subject()`. -/
def mkSubject : ObsSubject :=
  { kind := .subject, current := .null, buffer := [], bufferSize := none,
    closed := false, subs := [] }

/-- Construction `new ReplaySubject(bufferSize, ...)`. -/
def mkReplaySubject (bufferSize : Option Nat) : ObsSubject :=
  { kind := .replay, current := .null, buffer := [], bufferSize := bufferSize,
    closed := false, subs := [] }

/-- Keep the last `n` elements of a buffer (`none` keeps everything),
modelling a `ReplaySubject` buffer bound. -/
def keepLast (n : Option Nat) (l : List JSVal) : List JSVal :=
  match n with
  | none => l
  | some k => l.drop (l.length - k)

/-- Errors surfaced by the external stream library. -/
inductive PushError where
  | objectUnsubscribed
  | typeError
deriving DecidableEq, Repr

/-- Modelled from the spec: `Subject.next(v)` of the external rxjs library,
which is not part of `src/`.  Per the spec's external-collaborator
contract, pushing into a terminated stream surfaces an error to the caller,
and pushing into a live stream never fails: it updates the retained state
per kind and delivers `v` to every attached subscriber, in order. -/
def ObsSubject.next (s : ObsSubject) (v : JSVal) : Except PushError ObsSubject :=
  if s.closed then
    .error .objectUnsubscribed
  else
    .ok { s with
      current := if s.kind = .behavior then v else s.current,
      buffer := if s.kind = .replay then keepLast s.bufferSize (s.buffer ++ [v])
                else s.buffer,
      subs := s.subs.map fun t => { t with received := t.received ++ [v] } }

/-- Modelled from the spec: `BehaviorSubject.getValue()` retrieves the
latest retained value. -/
def ObsSubject.getValue (s : ObsSubject) : JSVal :=
  s.current

/-- Values a fresh subscriber receives immediately upon attaching: the
current value for a `BehaviorSubject`, nothing for a plain `Subject`, the
buffered backlog (oldest first) for a `ReplaySubject`. -/
def ObsSubject.initialEmits (s : ObsSubject) : List JSVal :=
  match s.kind with
  | .behavior => [s.current]
  | .subject => []
  | .replay => s.buffer

/-- Modelled from the spec: attaching a subscriber to the subject's derived
observable. -/
def ObsSubject.subscribe (s : ObsSubject) : ObsSubject :=
  { s with subs := s.subs ++ [{ received := s.initialEmits }] }

/-- Variant A's subject construction: the `switch (options.type)` inside the
materializing setter, observed.decorator.ts lines 32-46 (cases `behavior`,
`replay`, `subject`, and a `default` falling back to a seeded
`BehaviorSubject`). -/
def initializeSubjectA (firstValue : JSVal) (opts : Options) : ObsSubject :=
  match opts.type with
  | .behavior => mkBehaviorSubject firstValue.orNull
  | .replay => mkReplaySubject opts.bufferSize
  | .subject => mkSubject
  | .unknown _ => mkBehaviorSubject firstValue.orNull

/-- Variant B's subject construction: `ObservedDecorator.initializeSubject`,
part_000 lines 68-81 (same cases, `default` falls back to a seeded
`BehaviorSubject`). -/
def initializeSubject (firstValue : JSVal) (opts : Options) : ObsSubject :=
  match opts.type with
  | .behavior => mkBehaviorSubject firstValue.orNull
  | .subject => mkSubject
  | .replay => mkReplaySubject opts.bufferSize
  | .unknown _ => mkBehaviorSubject firstValue.orNull

/-- Program state for one decorated property declaration: a heap of
constructed subjects (a subject's index is also the identity of the cached
`asObservable()` handle derived from it at materialization), and for every
owner (object instance, or the class itself for a static property) the
index of its materialized subject, if the owner has materialized. -/
structure World where
  heap : List ObsSubject
  mat : Nat → Option Nat

/-- State right after the decorator ran: no owner has materialized, no
subject exists. -/
def freshWorld : World :=
  { heap := [], mat := fun _ => none }

/-- Subject stored at heap index `sid` (well-formed states only use
in-range indices). -/
def subjectAt (w : World) (sid : Nat) : ObsSubject :=
  w.heap.getD sid mkSubject

/-- Variant A's materializing setter (observed.decorator.ts lines 30-66):
construct the subject from the first written value, cache its observable,
and install owner-level accessors on owner `o` only. -/
def materializeA (w : World) (o : Nat) (firstValue : JSVal) (opts : Options) : World :=
  { heap := w.heap ++ [initializeSubjectA firstValue opts],
    mat := fun x => if x = o then some w.heap.length else w.mat x }

/-- Variant B's materializing setter (`initialSetValue`, part_000 lines
52-66): identical shape, but constructs via `initializeSubject`. -/
def materializeB (w : World) (o : Nat) (firstValue : JSVal) (opts : Options) : World :=
  { heap := w.heap ++ [initializeSubject firstValue opts],
    mat := fun x => if x = o then some w.heap.length else w.mat x }

/-- Owner-level value getter installed at materialization
(observed.decorator.ts lines 51-57, part_000 line 57): the retained value
for a `BehaviorSubject`, else `null`. -/
def matGet (s : ObsSubject) : JSVal :=
  if s.kind = .behavior then s.getValue else .null

/-- One operation a client can perform against the declaration: read or
write the decorated value property of owner `o`, read or write the derived
stream property of owner `o`, or attach a subscriber to a stream handle. -/
inductive Op where
  | readV (o : Nat)
  | writeV (o : Nat) (v : JSVal)
  | readS (o : Nat)
  | writeS (o : Nat)
  | subscribeTo (h : Nat)
deriving DecidableEq, Repr

/-- Result observed by the client performing one operation. -/
inductive Res where
  | val (v : JSVal)
  | handle (h : Nat)
  | done
  | thrown (e : PushError)
deriving DecidableEq, Repr

/-- One step of variant A (observed.decorator.ts lines 22-99).

Value read: owner-level getter if materialized; otherwise the
prototype-level getter (lines 68-77), which materializes with the captured
initial value and returns it when that value is defined, and returns `null`
without materializing when it is `undefined`.

Value write: owner-level setter `subject.next` if materialized (line 58);
otherwise the materializing setter seeded with the written value.

Stream read: the cached handle if materialized; otherwise the
prototype-level getter (lines 84-97), which materializes (seeding `null`
when the captured initial value is `undefined`) and returns the new handle.

Stream write: an explicit no-op at both levels (lines 64 and 94).

Subscribing is delegated to the subject behind the handle. -/
def stepA (d : Decl) (w : World) : Op → Res × World
  | .readV o =>
    match w.mat o with
    | some sid => (.val (matGet (subjectAt w sid)), w)
    | none =>
      if d.initialValue = .undef then
        (.val .null, w)
      else
        (.val d.initialValue, materializeA w o d.initialValue d.opts)
  | .writeV o v =>
    match w.mat o with
    | some sid =>
      match (subjectAt w sid).next v with
      | .ok s => (.done, { w with heap := w.heap.set sid s })
      | .error e => (.thrown e, w)
    | none => (.done, materializeA w o v d.opts)
  | .readS o =>
    match w.mat o with
    | some sid => (.handle sid, w)
    | none =>
      if d.initialValue = .undef then
        (.handle w.heap.length, materializeA w o .null d.opts)
      else
        (.handle w.heap.length, materializeA w o d.initialValue d.opts)
  | .writeS o =>
    match w.mat o with
    | some _ => (.done, w)
    | none => (.done, w)
  | .subscribeTo h =>
    (.done, { w with heap := w.heap.set h ((subjectAt w h).subscribe) })

/-- One step of variant B (part_000 lines 22-98).

Value read: owner-level getter if materialized; otherwise
`initialGetValue` (lines 89-92): materialize with the normalized seed
`initialValue ?? null`, then delegate to the freshly installed owner-level
getter.

Value write: as in variant A, via `initialSetValue`.

Stream read: the cached handle if materialized; otherwise
`initialGetObservable` (lines 94-97): materialize with the normalized seed,
then return the new handle.

Stream write: variant B defines both stream-property accessors without a
setter (lines 41-47 and 62-65), so a strict-mode assignment raises a
`TypeError`. -/
def stepB (d : Decl) (w : World) : Op → Res × World
  | .readV o =>
    match w.mat o with
    | some sid => (.val (matGet (subjectAt w sid)), w)
    | none =>
      let w' := materializeB w o d.initialValue.orNull d.opts
      (.val (matGet (subjectAt w' w.heap.length)), w')
  | .writeV o v =>
    match w.mat o with
    | some sid =>
      match (subjectAt w sid).next v with
      | .ok s => (.done, { w with heap := w.heap.set sid s })
      | .error e => (.thrown e, w)
    | none => (.done, materializeB w o v d.opts)
  | .readS o =>
    match w.mat o with
    | some sid => (.handle sid, w)
    | none =>
      (.handle w.heap.length, materializeB w o d.initialValue.orNull d.opts)
  | .writeS _ => (.thrown .typeError, w)
  | .subscribeTo h =>
    (.done, { w with heap := w.heap.set h ((subjectAt w h).subscribe) })

/-- Run a sequence of operations under variant A, collecting the
per-operation results. -/
def runA (d : Decl) : World → List Op → List Res × World
  | w, [] => ([], w)
  | w, op :: ops =>
    let rw := stepA d w op
    let rest := runA d rw.2 ops
    (rw.1 :: rest.1, rest.2)

/-- Run a sequence of operations under variant B, collecting the
per-operation results. -/
def runB (d : Decl) : World → List Op → List Res × World
  | w, [] => ([], w)
  | w, op :: ops =>
    let rw := stepB d w op
    let rest := runB d rw.2 ops
    (rw.1 :: rest.1, rest.2)

/-- Every owner-to-subject pointer is in range of the heap. -/
def MatValid (w : World) : Prop :=
  ∀ o sid, w.mat o = some sid → sid < w.heap.length

/-- Distinct owners never point at the same subject. -/
def MatInj (w : World) : Prop :=
  ∀ a b sid, w.mat a = some sid → w.mat b = some sid → a = b

/-- No subject in the heap has been terminated by an external consumer. -/
def AllLive (w : World) : Prop :=
  ∀ s ∈ w.heap, s.closed = false

/-- Every subject in the heap is a `BehaviorSubject`. -/
def AllBehavior (w : World) : Prop :=
  ∀ s ∈ w.heap, s.kind = .behavior

/-- A state whose single owner 0 is bound to a subject that an external
consumer has terminated (unsubscribed). -/
def terminatedWorld : World :=
  { heap := [{ kind := .behavior, current := .null, buffer := [],
               bufferSize := none, closed := true, subs := [] }],
    mat := fun x => if x = 0 then some 0 else none }

/-- Guard for the variant-equivalence statement: every value-property read
is preceded by an earlier value write or stream read of the same owner (so
the value read happens after that owner materialized), and no
stream-property write occurs.  Stream reads are unrestricted — the two
variants agree on them even before materialization — and, like writes,
they materialize their owner, so `written` accumulates the owners
materialized by either a write or a stream read. -/
def coveredOps (written : List Nat) : List Op → Bool
  | [] => true
  | .writeV o _ :: rest => coveredOps (o :: written) rest
  | .readV o :: rest => if o ∈ written then coveredOps written rest else false
  | .readS o :: rest => coveredOps (o :: written) rest
  | .writeS _ :: _ => false
  | .subscribeTo _ :: rest => coveredOps written rest

/-! Basic lemmas about subject construction and the world operations. -/

theorem initializeSubjectA_eq_initializeSubject (fv : JSVal) (opts : Options) :
    initializeSubjectA fv opts = initializeSubject fv opts := by
  rcases opts with ⟨t, bs⟩
  cases t <;> rfl

theorem initializeSubjectA_closed (fv : JSVal) (opts : Options) :
    (initializeSubjectA fv opts).closed = false := by
  rcases opts with ⟨t, bs⟩
  cases t <;> rfl

theorem initializeSubjectA_subs (fv : JSVal) (opts : Options) :
    (initializeSubjectA fv opts).subs = [] := by
  rcases opts with ⟨t, bs⟩
  cases t <;> rfl

theorem materializeA_eq_materializeB (w : World) (o : Nat) (fv : JSVal)
    (opts : Options) : materializeA w o fv opts = materializeB w o fv opts := by
  simp [materializeA, materializeB, initializeSubjectA_eq_initializeSubject]

theorem mat_materializeA_self (w : World) (o : Nat) (fv : JSVal) (opts : Options) :
    (materializeA w o fv opts).mat o = some w.heap.length := by
  simp [materializeA]

theorem mat_materializeA_ne (w : World) (o x : Nat) (fv : JSVal) (opts : Options)
    (h : x ≠ o) : (materializeA w o fv opts).mat x = w.mat x := by
  simp [materializeA, h]

theorem subjectAt_materializeA_lt (w : World) (o : Nat) (fv : JSVal) (opts : Options)
    (sid : Nat) (h : sid < w.heap.length) :
    subjectAt (materializeA w o fv opts) sid = subjectAt w sid := by
  simp [subjectAt, materializeA, List.getD_eq_getElem?_getD,
    List.getElem?_append_left h]

theorem subjectAt_materializeA_len (w : World) (o : Nat) (fv : JSVal) (opts : Options) :
    subjectAt (materializeA w o fv opts) w.heap.length = initializeSubjectA fv opts := by
  simp [subjectAt, materializeA, List.getD_eq_getElem?_getD,
    List.getElem?_append_right (Nat.le_refl _)]

theorem subjectAt_set_self (w : World) (sid : Nat) (s : ObsSubject)
    (h : sid < w.heap.length) :
    subjectAt { w with heap := w.heap.set sid s } sid = s := by
  simp [subjectAt, List.getD_eq_getElem?_getD, List.getElem?_set_self h]

theorem subjectAt_set_ne (w : World) (i j : Nat) (s : ObsSubject) (h : i ≠ j) :
    subjectAt { w with heap := w.heap.set i s } j = subjectAt w j := by
  simp [subjectAt, List.getD_eq_getElem?_getD, List.getElem?_set_ne h]

theorem subjectAt_mem (w : World) (sid : Nat) (h : sid < w.heap.length) :
    subjectAt w sid ∈ w.heap := by
  rw [subjectAt, List.getD_eq_getElem _ _ h]
  exact List.getElem_mem h

/-! Shape of the prototype-level (pre-materialization) reads of variant A
on the fresh state. -/

theorem stepA_readS_fresh (d : Decl) (o : Nat) :
    stepA d freshWorld (.readS o) =
      (Res.handle 0, materializeA freshWorld o d.initialValue.orNull d.opts) := by
  rcases d with ⟨init, opts⟩
  cases init <;> rfl

theorem stepA_readV_fresh (d : Decl) (o : Nat) :
    stepA d freshWorld (.readV o) =
      (if d.initialValue = .undef then (Res.val .null, freshWorld)
       else (Res.val d.initialValue,
             materializeA freshWorld o d.initialValue d.opts)) := by
  rcases d with ⟨init, opts⟩
  cases init <;> rfl

/-! Shape of the owner-level (post-materialization) accessors. -/

theorem stepA_readV_of_mat (d : Decl) (w : World) (o sid : Nat)
    (hm : w.mat o = some sid) :
    stepA d w (.readV o) = (Res.val (matGet (subjectAt w sid)), w) := by
  simp [stepA, hm]

theorem stepA_readV_fst_of_unmat (d : Decl) (w : World) (o : Nat)
    (hm : w.mat o = none) :
    (stepA d w (.readV o)).1 =
      (if d.initialValue = .undef then Res.val .null
       else Res.val d.initialValue) := by
  by_cases hc : d.initialValue = .undef <;> simp [stepA, hm, hc]

theorem stepA_readS_of_mat (d : Decl) (w : World) (o sid : Nat)
    (hm : w.mat o = some sid) :
    stepA d w (.readS o) = (Res.handle sid, w) := by
  simp [stepA, hm]

/-! Effect of a single value write, as needed for the isolation claim. -/

theorem stepA_writeV_mat_other (d : Decl) (w : World) (a b : Nat) (v : JSVal)
    (hba : b ≠ a) : (stepA d w (.writeV a v)).2.mat b = w.mat b := by
  cases hma : w.mat a with
  | none => simp [stepA, hma, mat_materializeA_ne w a b v d.opts hba]
  | some sidA =>
    cases hnx : (subjectAt w sidA).next v with
    | ok s => simp [stepA, hma, hnx]
    | error e => simp [stepA, hma, hnx]

theorem stepA_writeV_subjectAt_other (d : Decl) (w : World) (a b : Nat) (v : JSVal)
    (hV : MatValid w) (hI : MatInj w) (hba : b ≠ a) (sid : Nat)
    (hmb : w.mat b = some sid) :
    subjectAt (stepA d w (.writeV a v)).2 sid = subjectAt w sid := by
  cases hma : w.mat a with
  | none =>
    have hlt : sid < w.heap.length := hV b sid hmb
    simp [stepA, hma, subjectAt_materializeA_lt w a v d.opts sid hlt]
  | some sidA =>
    cases hnx : (subjectAt w sidA).next v with
    | error e => simp [stepA, hma, hnx]
    | ok s =>
      have hne : sidA ≠ sid := by
        intro he
        subst he
        exact hba (hI b a sidA hmb hma)
      simp [stepA, hma, hnx, subjectAt_set_ne w sidA sid s hne]

/-! Materialization is permanent: once an owner points at a subject, no
operation ever changes that pointer. -/

theorem stepA_mat_preserved (d : Decl) (w : World) (op : Op) (o sid : Nat)
    (h : w.mat o = some sid) : (stepA d w op).2.mat o = some sid := by
  cases op with
  | readV x =>
    cases hmx : w.mat x with
    | some s2 => simpa [stepA, hmx] using h
    | none =>
      have hox : o ≠ x := by
        intro he
        rw [he, hmx] at h
        cases h
      by_cases hc : d.initialValue = .undef
      · simpa [stepA, hmx, hc] using h
      · simpa [stepA, hmx, hc, mat_materializeA_ne w x o d.initialValue d.opts hox]
          using h
  | writeV x v =>
    cases hmx : w.mat x with
    | some s2 =>
      cases hnx : (subjectAt w s2).next v with
      | ok s => simpa [stepA, hmx, hnx] using h
      | error e => simpa [stepA, hmx, hnx] using h
    | none =>
      have hox : o ≠ x := by
        intro he
        rw [he, hmx] at h
        cases h
      simpa [stepA, hmx, mat_materializeA_ne w x o v d.opts hox] using h
  | readS x =>
    cases hmx : w.mat x with
    | some s2 => simpa [stepA, hmx] using h
    | none =>
      have hox : o ≠ x := by
        intro he
        rw [he, hmx] at h
        cases h
      by_cases hc : d.initialValue = .undef
      · simpa [stepA, hmx, hc, mat_materializeA_ne w x o .null d.opts hox] using h
      · simpa [stepA, hmx, hc,
          mat_materializeA_ne w x o d.initialValue d.opts hox] using h
  | writeS x =>
    cases hmx : w.mat x with
    | some s2 => simpa [stepA, hmx] using h
    | none => simpa [stepA, hmx] using h
  | subscribeTo hh => simpa [stepA] using h

theorem runA_mat_preserved (d : Decl) (ops : List Op) (w : World) (o sid : Nat)
    (h : w.mat o = some sid) : (runA d w ops).2.mat o = some sid := by
  induction ops generalizing w with
  | nil => exact h
  | cons op rest ih =>
    simp only [runA]
    exact ih _ (stepA_mat_preserved d w op o sid h)

theorem stepA_writeV_mat_self (d : Decl) (w : World) (o : Nat) (v : JSVal) :
    ∃ sid, (stepA d w (.writeV o v)).2.mat o = some sid := by
  cases hm : w.mat o with
  | none => exact ⟨w.heap.length, by simp [stepA, hm, mat_materializeA_self]⟩
  | some sid =>
    cases hnx : (subjectAt w sid).next v with
    | ok s => exact ⟨sid, by simp [stepA, hm, hnx]⟩
    | error e => exact ⟨sid, by simp [stepA, hm, hnx]⟩

/-! The two variants take identical steps on writes, on subscriptions, and
on reads of an owner that has already materialized. -/

theorem stepB_writeV_eq_stepA (d : Decl) (w : World) (o : Nat) (v : JSVal) :
    stepB d w (.writeV o v) = stepA d w (.writeV o v) := by
  cases hm : w.mat o with
  | some sid => simp [stepA, stepB, hm]
  | none => simp [stepA, stepB, hm, materializeA_eq_materializeB]

theorem stepB_readV_eq_stepA (d : Decl) (w : World) (o sid : Nat)
    (hm : w.mat o = some sid) :
    stepB d w (.readV o) = stepA d w (.readV o) := by
  simp [stepA, stepB, hm]

theorem stepB_readS_eq_stepA (d : Decl) (w : World) (o : Nat) :
    stepB d w (.readS o) = stepA d w (.readS o) := by
  cases hm : w.mat o with
  | some sid => simp [stepA, stepB, hm]
  | none =>
    rcases d with ⟨init, opts⟩
    cases init <;>
      simp [stepA, stepB, hm, JSVal.orNull, materializeA_eq_materializeB]

theorem stepA_readS_mat_self (d : Decl) (w : World) (o : Nat) :
    ∃ sid, (stepA d w (.readS o)).2.mat o = some sid := by
  cases hm : w.mat o with
  | some sid => exact ⟨sid, by simp [stepA, hm]⟩
  | none =>
    by_cases hc : d.initialValue = .undef
    · exact ⟨w.heap.length, by simp [stepA, hm, hc, mat_materializeA_self]⟩
    · exact ⟨w.heap.length, by simp [stepA, hm, hc, mat_materializeA_self]⟩

theorem stepB_subscribeTo_eq_stepA (d : Decl) (w : World) (h : Nat) :
    stepB d w (.subscribeTo h) = stepA d w (.subscribeTo h) := rfl

/-! Delivery of writes to attached subscribers. -/

theorem stepA_writeV_live (d : Decl) (w : World) (o sid : Nat) (v : JSVal)
    (hm : w.mat o = some sid) (hcl : (subjectAt w sid).closed = false) :
    ∃ s' : ObsSubject,
      (stepA d w (.writeV o v)).2 = { w with heap := w.heap.set sid s' } ∧
      s'.subs = (subjectAt w sid).subs.map
        (fun t => { received := t.received ++ [v] }) ∧
      s'.closed = false := by
  cases hnx : (subjectAt w sid).next v with
  | error e => simp [ObsSubject.next, hcl] at hnx
  | ok s' =>
    have hx := hnx
    simp [ObsSubject.next, hcl] at hx
    refine ⟨s', by simp [stepA, hm, hnx], ?_, ?_⟩
    · rw [← hx]
    · rw [← hx]

theorem runA_writes_deliver (d : Decl) (o sid : Nat) (vs : List JSVal) :
    ∀ w : World, w.mat o = some sid → sid < w.heap.length →
      (subjectAt w sid).closed = false →
      (subjectAt (runA d w (vs.map (Op.writeV o))).2 sid).subs =
        (subjectAt w sid).subs.map
          (fun t => { received := t.received ++ vs }) := by
  induction vs with
  | nil =>
    intro w hm hlt hcl
    have he : (fun t : Subscriber =>
        ({ received := t.received ++ [] } : Subscriber)) = id := by
      funext t
      cases t
      simp
    simp only [List.map_nil, runA]
    rw [he, List.map_id]
  | cons v vs ih =>
    intro w hm hlt hcl
    obtain ⟨s', hw, hsubs, hcl'⟩ := stepA_writeV_live d w o sid v hm hcl
    have hm' : ({ w with heap := w.heap.set sid s' } : World).mat o = some sid := hm
    have hlt' : sid < ({ w with heap := w.heap.set sid s' } : World).heap.length := by
      simpa using hlt
    have hs' : subjectAt { w with heap := w.heap.set sid s' } sid = s' :=
      subjectAt_set_self w sid s' hlt
    have hrest := ih { w with heap := w.heap.set sid s' } hm' hlt'
      (by rw [hs']; exact hcl')
    have hfun : ((fun t : Subscriber =>
          ({ received := t.received ++ vs } : Subscriber)) ∘
        (fun t : Subscriber =>
          ({ received := t.received ++ [v] } : Subscriber))) =
        fun t : Subscriber =>
          ({ received := t.received ++ v :: vs } : Subscriber) := by
      funext t
      simp
    simp only [List.map_cons, runA]
    rw [hw, hrest, hs', hsubs, List.map_map, hfun]

/-! Unrecognized kind selectors take the default switch branch. -/

theorem materializeA_unknown (w : World) (o : Nat) (fv : JSVal) (s : String)
    (bs : Option Nat) :
    materializeA w o fv ⟨.unknown s, bs⟩ = materializeA w o fv ⟨.behavior, bs⟩ := rfl

theorem stepA_unknown (init : JSVal) (s : String) (bs : Option Nat) (w : World)
    (op : Op) :
    stepA ⟨init, ⟨.unknown s, bs⟩⟩ w op = stepA ⟨init, ⟨.behavior, bs⟩⟩ w op := by
  cases op with
  | readV o => cases hm : w.mat o <;> simp [stepA, hm, materializeA_unknown]
  | writeV o v => cases hm : w.mat o <;> simp [stepA, hm, materializeA_unknown]
  | readS o => cases hm : w.mat o <;> simp [stepA, hm, materializeA_unknown]
  | writeS o => cases hm : w.mat o <;> simp [stepA, hm]
  | subscribeTo h => rfl

/-! Claim theorems. -/

/-- C3 evaluation at the failing input.  For the stateless (`'subject'`)
kind with a defined captured initial value (an initialized static member),
the very first read of the decorated value property in the arrow variant
returns the captured initial value `5`, not the absence marker `null`,
contradicting the decorator's own doc comment ("Accessing the parameter
will always return null"). -/
theorem observed_subject_read_returns_initial_not_null :
    (stepA ⟨.num 5, ⟨.subject, none⟩⟩ freshWorld (.readV 0)).1 = Res.val (.num 5) ∧
    Res.val (.num 5) ≠ Res.val .null := by
  decide

/-- C2 counterexample.  With the retaining-latest kind, the very first
write (which materializes the binding) normalizes `undefined` to `null`:
after `owner.prop = undefined`, reading the property yields `null`, not the
written value. -/
theorem observed_behavior_first_write_undef_cex :
    (stepA ⟨.undef, ⟨.behavior, none⟩⟩
        ((stepA ⟨.undef, ⟨.behavior, none⟩⟩ freshWorld (.writeV 0 .undef)).2)
        (.readV 0)).1 = Res.val .null ∧
    Res.val .null ≠ Res.val .undef := by
  decide

/-- C4 counterexample.  When the captured initial value is absent
(`undefined`), reading the decorated value property before any write does
not trigger materialization in the arrow variant: it returns `null` and
leaves the owner unmaterialized. -/
theorem observed_value_read_absent_no_materialization_cex :
    (stepA ⟨.undef, ⟨.behavior, none⟩⟩ freshWorld (.readV 0)).2.mat 0 = none ∧
    (stepA ⟨.undef, ⟨.behavior, none⟩⟩ freshWorld (.readV 0)).1 = Res.val .null := by
  decide

/-- C4 (amended).  Pre-initialization reads are well-defined and never
raise.  The stream-property read always materializes, seeded with the
captured initial value normalized to `null`, and returns the new handle.
The value-property read materializes (seeded with the captured initial
value) and returns that value when it is defined; when it is absent, the
read returns `null` and leaves the owner unmaterialized. -/
theorem observed_pre_read_well_defined (d : Decl) (o : Nat) :
    stepA d freshWorld (.readS o) =
      (Res.handle 0, materializeA freshWorld o d.initialValue.orNull d.opts) ∧
    stepA d freshWorld (.readV o) =
      (if d.initialValue = .undef then (Res.val .null, freshWorld)
       else (Res.val d.initialValue,
             materializeA freshWorld o d.initialValue d.opts)) := by
  rcases d with ⟨init, opts⟩
  cases init <;> exact ⟨rfl, rfl⟩

/-- C9 counterexample.  The two variants are not extensionally equivalent:
for a stateless-kind declaration whose captured initial value is `5`, the
single pre-materialization value read returns `5` in the arrow variant but
`null` in the namespaced variant. -/
theorem observed_variants_differ_cex :
    (runA ⟨.num 5, ⟨.subject, none⟩⟩ freshWorld [.readV 0]).1 ≠
    (runB ⟨.num 5, ⟨.subject, none⟩⟩ freshWorld [.readV 0]).1 := by
  decide

/-- C10: assigning to the derived stream property is a silent no-op both
before and after materialization: no error is raised, the state is
unchanged, and a subsequent stream-property read returns exactly what it
would have returned before the assignment. -/
theorem observed_stream_write_noop (d : Decl) (w : World) (o : Nat) :
    stepA d w (.writeS o) = (Res.done, w) ∧
    stepA d ((stepA d w (.writeS o)).2) (.readS o) = stepA d w (.readS o) := by
  have h : stepA d w (.writeS o) = (Res.done, w) := by
    cases hm : w.mat o <;> simp [stepA, hm]
  exact ⟨h, by rw [h]⟩

/-- C1: per-owner isolation.  In any well-formed state (owner pointers in
range and injective), writing any value to owner `a` leaves a distinct
owner `b` untouched: `b`'s materialization pointer is unchanged, `b`'s
subject (hence the latest value held by `b`'s stream) is unchanged, and a
read of `b`'s decorated property returns exactly what it would have
returned before the write. -/
theorem observed_write_isolated (d : Decl) (w : World) (a b : Nat) (v : JSVal)
    (hV : MatValid w) (hI : MatInj w) (hab : a ≠ b) :
    ((stepA d w (.writeV a v)).2.mat b = w.mat b) ∧
    (∀ sid, w.mat b = some sid →
      subjectAt (stepA d w (.writeV a v)).2 sid = subjectAt w sid) ∧
    ((stepA d (stepA d w (.writeV a v)).2 (.readV b)).1 =
      (stepA d w (.readV b)).1) := by
  have hba : b ≠ a := fun h => hab h.symm
  have h1 := stepA_writeV_mat_other d w a b v hba
  refine ⟨h1, fun sid hmb =>
    stepA_writeV_subjectAt_other d w a b v hV hI hba sid hmb, ?_⟩
  cases hmb : w.mat b with
  | some sid =>
    have h2 := stepA_writeV_subjectAt_other d w a b v hV hI hba sid hmb
    rw [stepA_readV_of_mat d _ b sid (h1.trans hmb),
      stepA_readV_of_mat d w b sid hmb]
    simp [h2]
  | none =>
    rw [stepA_readV_fst_of_unmat d _ b (h1.trans hmb),
      stepA_readV_fst_of_unmat d w b hmb]

/-- C1 witness at a concrete input: two fresh owners 0 and 1; writing `7`
to owner 0 leaves owner 1's read unchanged. -/
theorem observed_write_isolated_witness :
    (stepA ⟨.null, ⟨.behavior, none⟩⟩
        ((stepA ⟨.null, ⟨.behavior, none⟩⟩ freshWorld (.writeV 0 (.num 7))).2)
        (.readV 1)).1 =
      (stepA ⟨.null, ⟨.behavior, none⟩⟩ freshWorld (.readV 1)).1 :=
  (observed_write_isolated ⟨.null, ⟨.behavior, none⟩⟩ freshWorld 0 1 (.num 7)
    (fun _ sid h => by simp [freshWorld] at h)
    (fun _ _ sid hx _ => by simp [freshWorld] at hx)
    (by decide)).2.2

/-- C2 (amended): retaining-latest read-back.  In a well-formed
retaining-latest state, immediately after `owner.prop = v` a read of
`owner.prop` returns exactly `v` whenever the owner had already
materialized, and returns `v` normalized by `?? null` on the very first
(materializing) write; hence the read returns exactly `v` for every
`v` other than the `undefined` marker, while a materializing first write
of `undefined` reads back as `null`. -/
theorem observed_behavior_write_then_read (d : Decl) (w : World) (o : Nat)
    (v : JSVal) (hbeh : d.opts.type = .behavior) (hV : MatValid w)
    (hB : AllBehavior w) (hL : AllLive w) :
    (stepA d ((stepA d w (.writeV o v)).2) (.readV o)).1 =
      Res.val (match w.mat o with | none => v.orNull | some _ => v) := by
  rcases d with ⟨init, ⟨t, bs⟩⟩
  have ht : t = .behavior := hbeh
  subst ht
  cases hm : w.mat o with
  | none =>
    simp [stepA, hm, mat_materializeA_self, subjectAt_materializeA_len,
      initializeSubjectA, matGet, mkBehaviorSubject, ObsSubject.getValue]
  | some sid =>
    have hlt : sid < w.heap.length := hV o sid hm
    have hmem := subjectAt_mem w sid hlt
    have hk : (subjectAt w sid).kind = .behavior := hB _ hmem
    have hcl : (subjectAt w sid).closed = false := hL _ hmem
    have hw : (stepA ⟨init, ⟨.behavior, bs⟩⟩ w (.writeV o v)).2 =
        { w with
            heap := w.heap.set sid
              ({ subjectAt w sid with
                 current := v,
                 subs := (subjectAt w sid).subs.map
                   fun t => { t with received := t.received ++ [v] } }) } := by
      simp [stepA, hm, ObsSubject.next, hcl, hk]
    have hss :=
      subjectAt_set_self w sid
        ({ subjectAt w sid with
           current := v,
           subs := (subjectAt w sid).subs.map
             fun t => { t with received := t.received ++ [v] } }) hlt
    rw [hw]
    rw [stepA_readV_of_mat ⟨init, ⟨.behavior, bs⟩⟩
        { w with
            heap := w.heap.set sid
              ({ subjectAt w sid with
                 current := v,
                 subs := (subjectAt w sid).subs.map
                   fun t => { t with received := t.received ++ [v] } }) }
        o sid hm]
    rw [hss]
    simp [matGet, ObsSubject.getValue, hk]

/-- C2 witness at a concrete input: the first write of `3` reads back as
`3`. -/
theorem observed_behavior_write_then_read_witness :
    (stepA ⟨.null, ⟨.behavior, none⟩⟩
        ((stepA ⟨.null, ⟨.behavior, none⟩⟩ freshWorld (.writeV 0 (.num 3))).2)
        (.readV 0)).1 = Res.val (.num 3) :=
  observed_behavior_write_then_read ⟨.null, ⟨.behavior, none⟩⟩ freshWorld 0
    (.num 3) rfl
    (fun _ sid h => by simp [freshWorld] at h)
    (fun s hs => by simp [freshWorld] at hs)
    (fun s hs => by simp [freshWorld] at hs)

/-- C5: stream-handle stability.  If a stream-property read on owner `o`
returns handle `h`, then after any further sequence of operations, reading
the stream property of `o` again still returns the identical handle `h`. -/
theorem observed_stream_handle_stable (d : Decl) (w : World) (o h : Nat)
    (ops : List Op)
    (hh : (stepA d w (.readS o)).1 = Res.handle h) :
    (stepA d (runA d ((stepA d w (.readS o)).2) ops).2 (.readS o)).1 =
      Res.handle h := by
  have hmat : (stepA d w (.readS o)).2.mat o = some h := by
    cases hm : w.mat o with
    | some sid =>
      simp [stepA, hm] at hh ⊢
      exact hh
    | none =>
      by_cases hc : d.initialValue = .undef <;>
        simp [stepA, hm, hc] at hh ⊢ <;>
        simp [mat_materializeA_self, hh]
  have h2 := runA_mat_preserved d ops _ o h hmat
  rw [stepA_readS_of_mat d _ o h h2]

/-- C5 witness at a concrete input: the handle obtained by the first
stream read of owner 0 survives a subsequent write. -/
theorem observed_stream_handle_stable_witness :
    (stepA ⟨.null, ⟨.behavior, none⟩⟩
        (runA ⟨.null, ⟨.behavior, none⟩⟩
          ((stepA ⟨.null, ⟨.behavior, none⟩⟩ freshWorld (.readS 0)).2)
          [.writeV 0 (.num 2)]).2
        (.readS 0)).1 = Res.handle 0 :=
  observed_stream_handle_stable ⟨.null, ⟨.behavior, none⟩⟩ freshWorld 0 0
    [.writeV 0 (.num 2)] (by decide)

/-- C7: an unrecognized kind selector behaves exactly as the
retaining-latest (`'behavior'`) kind: subject construction falls through
to the default branch, no error is raised, and every run of operations
from the fresh state produces identical results and an identical final
state. -/
theorem observed_unknown_kind_defaults_to_behavior (init : JSVal) (s : String)
    (bs : Option Nat) (w : World) (ops : List Op) :
    runA ⟨init, ⟨.unknown s, bs⟩⟩ w ops = runA ⟨init, ⟨.behavior, bs⟩⟩ w ops := by
  induction ops generalizing w with
  | nil => rfl
  | cons op rest ih =>
    simp only [runA, stepA_unknown, ih]

/-- C8: write on a terminated versus live stream.  For a materialized
owner, if the underlying subject has been terminated by an external
consumer, the write surfaces the error to the caller (the owner-level
setter forwards `subject.next` without catching) and changes nothing; if
the subject is live, the write never fails synchronously. -/
theorem observed_write_surfaces_termination (d : Decl) (w : World) (o sid : Nat)
    (v : JSVal) (hm : w.mat o = some sid) :
    ((subjectAt w sid).closed = true →
      stepA d w (.writeV o v) = (Res.thrown .objectUnsubscribed, w)) ∧
    ((subjectAt w sid).closed = false →
      (stepA d w (.writeV o v)).1 = Res.done) := by
  constructor
  · intro hc
    simp [stepA, hm, ObsSubject.next, hc]
  · intro hc
    simp [stepA, hm, ObsSubject.next, hc]

/-- C8 witness at concrete inputs: a write to the terminated single-owner
state throws, and a write to a freshly materialized live owner
succeeds. -/
theorem observed_write_surfaces_termination_witness :
    (stepA ⟨.null, ⟨.behavior, none⟩⟩ terminatedWorld (.writeV 0 (.num 2)) =
      (Res.thrown .objectUnsubscribed, terminatedWorld)) ∧
    ((stepA ⟨.null, ⟨.behavior, none⟩⟩
        ((stepA ⟨.null, ⟨.behavior, none⟩⟩ freshWorld (.writeV 0 (.num 1))).2)
        (.writeV 0 (.num 2))).1 = Res.done) :=
  ⟨(observed_write_surfaces_termination ⟨.null, ⟨.behavior, none⟩⟩
      terminatedWorld 0 0 (.num 2) (by decide)).1 (by decide),
   (observed_write_surfaces_termination ⟨.null, ⟨.behavior, none⟩⟩
      ((stepA ⟨.null, ⟨.behavior, none⟩⟩ freshWorld (.writeV 0 (.num 1))).2)
      0 0 (.num 2) (by decide)).2 (by decide)⟩

/-- C6: materialization-before-write ordering and in-order delivery.  For
any declaration and any kind: read the stream property of owner `o` first
(this materializes and returns handle 0), attach a subscriber to that
handle, then perform the writes `vs` in order.  The subscriber has then
received exactly the subject's immediate emissions at attach time followed
by `vs`, in exactly the order the writes occurred. -/
theorem observed_pushes_delivered_in_order (d : Decl) (o : Nat)
    (vs : List JSVal) :
    (subjectAt (runA d
        ((stepA d ((stepA d freshWorld (.readS o)).2) (.subscribeTo 0)).2)
        (vs.map (Op.writeV o))).2 0).subs =
      [{ received :=
          (subjectAt ((stepA d freshWorld (.readS o)).2) 0).initialEmits
            ++ vs }] := by
  have h1 : (stepA d freshWorld (.readS o)).2 =
      materializeA freshWorld o d.initialValue.orNull d.opts := by
    rw [stepA_readS_fresh d o]
  have h3 : subjectAt (materializeA freshWorld o d.initialValue.orNull d.opts) 0 =
      initializeSubjectA d.initialValue.orNull d.opts :=
    subjectAt_materializeA_len freshWorld o d.initialValue.orNull d.opts
  have h2 : (stepA d (materializeA freshWorld o d.initialValue.orNull d.opts)
      (.subscribeTo 0)).2 =
      { materializeA freshWorld o d.initialValue.orNull d.opts with
          heap := (materializeA freshWorld o d.initialValue.orNull d.opts).heap.set 0
            ((initializeSubjectA d.initialValue.orNull d.opts).subscribe) } := by
    rw [show (stepA d (materializeA freshWorld o d.initialValue.orNull d.opts)
        (.subscribeTo 0)).2 =
        { materializeA freshWorld o d.initialValue.orNull d.opts with
            heap := (materializeA freshWorld o d.initialValue.orNull d.opts).heap.set 0
              ((subjectAt (materializeA freshWorld o d.initialValue.orNull d.opts)
                 0).subscribe) } from rfl, h3]
  rw [h1, h2, h3]
  have hm2 : ({ materializeA freshWorld o d.initialValue.orNull d.opts with
      heap := (materializeA freshWorld o d.initialValue.orNull d.opts).heap.set 0
        ((initializeSubjectA d.initialValue.orNull d.opts).subscribe) } :
        World).mat o = some 0 :=
    mat_materializeA_self freshWorld o d.initialValue.orNull d.opts
  have hlt1 : (0 : Nat) <
      (materializeA freshWorld o d.initialValue.orNull d.opts).heap.length := by
    simp [materializeA, freshWorld]
  have hlt2 : (0 : Nat) <
      ({ materializeA freshWorld o d.initialValue.orNull d.opts with
          heap := (materializeA freshWorld o d.initialValue.orNull d.opts).heap.set 0
            ((initializeSubjectA d.initialValue.orNull d.opts).subscribe) } :
            World).heap.length := by
    simpa using hlt1
  have hsda :=
    subjectAt_set_self (materializeA freshWorld o d.initialValue.orNull d.opts) 0
      ((initializeSubjectA d.initialValue.orNull d.opts).subscribe) hlt1
  have hcl2 : (subjectAt
      ({ materializeA freshWorld o d.initialValue.orNull d.opts with
          heap := (materializeA freshWorld o d.initialValue.orNull d.opts).heap.set 0
            ((initializeSubjectA d.initialValue.orNull d.opts).subscribe) } :
            World) 0).closed = false := by
    rw [hsda]
    simpa [ObsSubject.subscribe] using
      initializeSubjectA_closed d.initialValue.orNull d.opts
  rw [runA_writes_deliver d o 0 vs _ hm2 hlt2 hcl2, hsda]
  simp [ObsSubject.subscribe, initializeSubjectA_subs]

/-- C9 (amended): the two decorator variants are extensionally equivalent
on every sequence of value reads/writes and stream reads in which each
value read is preceded by an earlier write or stream read of the same
owner (so every value read happens after that owner materialized): such
runs produce identical result traces and identical final states.  Writes
and stream reads agree unconditionally, including before materialization;
the variants differ only on a value read of an owner that has not yet
materialized, as the counterexample shows. -/
theorem observed_variants_agree_after_writes (d : Decl) (ops : List Op)
    (hc : coveredOps [] ops = true) :
    runB d freshWorld ops = runA d freshWorld ops := by
  suffices main : ∀ ops2 written (w : World),
      (∀ o, o ∈ written → ∃ sid, w.mat o = some sid) →
      coveredOps written ops2 = true → runB d w ops2 = runA d w ops2 by
    exact main ops [] freshWorld (fun o ho => by cases ho) hc
  intro ops2
  induction ops2 with
  | nil =>
    intro written w hw hc2
    rfl
  | cons op rest ih =>
    intro written w hw hc2
    cases op with
    | writeV o v =>
      have hinv : ∀ x, x ∈ (o :: written) →
          ∃ sid, ((stepA d w (.writeV o v)).2).mat x = some sid := by
        intro x hx
        rcases List.mem_cons.mp hx with hxo | hxw
        · subst hxo
          exact stepA_writeV_mat_self d w x v
        · obtain ⟨sid, hsid⟩ := hw x hxw
          exact ⟨sid, stepA_mat_preserved d w _ x sid hsid⟩
      have hc3 : coveredOps (o :: written) rest = true := hc2
      simp only [runB, runA, stepB_writeV_eq_stepA]
      rw [ih (o :: written) ((stepA d w (.writeV o v)).2) hinv hc3]
    | readV o =>
      have hmem : o ∈ written := by
        by_cases hx : o ∈ written
        · exact hx
        · simp [coveredOps, hx] at hc2
      obtain ⟨sid, hsid⟩ := hw o hmem
      have hc3 : coveredOps written rest = true := by
        simpa [coveredOps, hmem] using hc2
      have hw2 : (stepA d w (.readV o)).2 = w := by
        rw [stepA_readV_of_mat d w o sid hsid]
      simp only [runB, runA, stepB_readV_eq_stepA d w o sid hsid]
      rw [hw2, ih written w hw hc3]
    | readS o =>
      have hinv : ∀ x, x ∈ (o :: written) →
          ∃ sid, ((stepA d w (.readS o)).2).mat x = some sid := by
        intro x hx
        rcases List.mem_cons.mp hx with hxo | hxw
        · subst hxo
          exact stepA_readS_mat_self d w x
        · obtain ⟨sid, hsid⟩ := hw x hxw
          exact ⟨sid, stepA_mat_preserved d w _ x sid hsid⟩
      have hc3 : coveredOps (o :: written) rest = true := hc2
      simp only [runB, runA, stepB_readS_eq_stepA]
      rw [ih (o :: written) ((stepA d w (.readS o)).2) hinv hc3]
    | writeS o =>
      exact absurd hc2 (by simp [coveredOps])
    | subscribeTo h =>
      have hc3 : coveredOps written rest = true := hc2
      have hinv : ∀ x, x ∈ written →
          ∃ sid, ((stepA d w (.subscribeTo h)).2).mat x = some sid :=
        fun x hx => hw x hx
      simp only [runB, runA, stepB_subscribeTo_eq_stepA]
      rw [ih written ((stepA d w (.subscribeTo h)).2) hinv hc3]

/-- C9 witness at a concrete input: a pre-materialization stream read
followed by a value read, a write, and another value read produces
identical traces and states in both variants. -/
theorem observed_variants_agree_after_writes_witness :
    runB ⟨.null, ⟨.behavior, none⟩⟩ freshWorld
        [.readS 0, .readV 0, .writeV 0 (.num 1), .readV 0] =
      runA ⟨.null, ⟨.behavior, none⟩⟩ freshWorld
        [.readS 0, .readV 0, .writeV 0 (.num 1), .readV 0] :=
  observed_variants_agree_after_writes ⟨.null, ⟨.behavior, none⟩⟩
    [.readS 0, .readV 0, .writeV 0 (.num 1), .readV 0] (by decide)

end RxObserved
